import Mathlib

/-!
Shallow embedding of `src/api_download_proposal_id.py` and proofs of the
spec's claims about it.

Modelling conventions, fixed once for the whole file:

* Every "restart" in the Python source is a tail call `start_proposal_id_check()`
  with no `return` after it.  In the actual program no such call ever returns
  normally: every control path of the mutually recursive functions ends in
  `quit()` (which raises `SystemExit`) or descends into another such call, so
  the statements following a restart call are dead.  We therefore model each
  restart site as a terminal control outcome (a constructor of an outcome
  type), and a network call happens only inside the constructor that carries
  the request data.
* Python `float` timestamps (`t_min`, MJD values) are modelled as `ℚ`: the
  claims about selection depend only on the order of the values, and on any
  set of concretely representable inputs the order of the floats agrees with
  the order of the rationals they denote.
* Python `int(x / 1000)` on a non-negative integer `x` is modelled as
  `x / 1000` on `ℕ` (floor division).  For every value that can reach this
  code below 2^53, float division by 1000 followed by `int` truncation equals
  floor division: the true quotient has fractional part at most 999/1000,
  which is far larger than half an ulp at these magnitudes, so rounding never
  crosses an integer boundary.
* `len(str(x))` for a non-negative integer `x` is the number of decimal
  digits of `x`, modelled by `numDigits` below.
-/

namespace ApiDownload

/-! ## Python `int()` syntax

`int(proposal_id)` succeeds exactly on an optionally whitespace-surrounded,
optionally signed, non-empty digit string in which single underscores may
separate digits (Python 3.6+ literal grammar: `digit (["_"] digit)*`).
We model the digit class with `Char.isDigit`; CPython additionally accepts
non-ASCII Unicode decimal digits, which no claim exercises. -/

/-- `digitRun cs` holds when `cs` matches `digit (["_"] digit)*`:
a non-empty run of digits in which each underscore is surrounded by digits. -/
def digitRun : List Char → Bool
  | [] => false
  | [c] => c.isDigit
  | c :: '_' :: rest => c.isDigit && digitRun rest
  | c :: rest => c.isDigit && digitRun rest

/-- Python `str.lower()`: lowercase each character.  (For the inputs the
claims exercise this is plain ASCII case mapping.) -/
def pyLower (s : String) : String := ⟨s.data.map Char.toLower⟩

/-- Whether Python `int(s)` succeeds: strip surrounding whitespace, allow one
leading sign, then require a `digitRun`. -/
def pyIntParseable (s : String) : Bool :=
  let cs := s.toList.dropWhile Char.isWhitespace
  let cs := (cs.reverse.dropWhile Char.isWhitespace).reverse
  match cs with
  | '+' :: rest => digitRun rest
  | '-' :: rest => digitRun rest
  | cs => digitRun cs

/-! ## `proposal_id_query` (validation phase) and `mastQuery` request shape -/

/-- The mashup request built by `proposal_id_query` (lines 126–141 of the
source): service name, format, column selector and the ordered filter list. -/
structure MashupRequest where
  service : String
  format : String
  columns : String
  filters : List (String × List String)
  deriving Repr, DecidableEq

/-- The global `_TELESCOPE` setting of the source. -/
def TELESCOPE : String := "JWST"

/-- Lines 126–141: the request `proposal_id_query` constructs.  `count = true`
selects `COUNT_BIG(*)`, otherwise `*`; the filters always pair the collection
filter with the proposal-id filter. -/
def buildMashupRequest (proposal_id : String) (count : Bool) : MashupRequest :=
  { service := "Mast.Caom.Filtered"
    format := "json"
    columns := if count then "COUNT_BIG(*)" else "*"
    filters := [("obs_collection", [TELESCOPE]), ("proposal_id", [proposal_id])] }

/-- Control outcome of `proposal_id_query` before any network activity:
either the process quits, or control restarts at `start_proposal_id_check`
(no request submitted), or a request is submitted to `mastQuery`.  The
network call of line 144 happens only in the `submit` branch, which is the
only constructor carrying the request. -/
inductive QueryOutcome where
  | quitProgram
  | restart
  | submit (request : MashupRequest)
  deriving Repr, DecidableEq

/-- Lines 117–144 of `proposal_id_query`: the quit-sentinel test on the
lowercased input comes first; then `int(proposal_id)` is attempted, and a
`ValueError` prints a message and restarts (the restart never returns, so no
request is ever built in that case); only then is the request built and
submitted. -/
def proposal_id_query (proposal_id : String) (count : Bool) : QueryOutcome :=
  if pyLower proposal_id = "q" then .quitProgram
  else if pyIntParseable proposal_id then .submit (buildMashupRequest proposal_id count)
  else .restart

/-! ## `start_proposal_id_check`: the count retry loop

Lines 80–88: `while count > 50000 or count == 0:` re-prompts and re-queries.
We model the successive counts returned for the operator's successive ids as
a list; the loop consumes them until one is in range.  An empty/exhausted
list means the operator never supplied an in-range id — the loop is still
running, modelled as `none`. -/

/-- The retry loop of lines 80–88: consume counts until one is neither `0`
nor above `50000`; return that count (`some`), or `none` if every supplied
count is out of range (the loop never exits). -/
def countLoop : List Nat → Option Nat
  | [] => none
  | c :: rest => if c > 50000 || c == 0 then countLoop rest else some c

/-! ## `download_latest_obs`: selection of the latest observation

Lines 209–223.  `times` is the list of non-null `t_min` values, in input
order; if it is empty the function prints the no-timing-information message
and restarts.  Otherwise `latest = times.index(max(times))` — the index of
the first maximal value *within the filtered list* — and the chosen record is
`data_entries[latest]`, an index into the *unfiltered* list. -/

/-- One row of a full-query result as consumed by `download_latest_obs`:
the five fields the function reads.  `t_min` may be null. -/
structure ObsRecord where
  obsid : String
  proposal_id : String
  proposal_pi : String
  target_name : String
  t_min : Option ℚ
  deriving Repr, DecidableEq

/-- Python `max` on a list, first argument pattern unreachable in the source
(`max([])` raises, and the source guards `len(times) == 0` first). -/
def pyMax : List ℚ → ℚ
  | [] => 0
  | x :: xs => xs.foldl max x

/-- Control outcome of the selection phase of `download_latest_obs`: either
the no-timing-information restart of lines 215–219 (no product query is
issued), or the product query of lines 237–242 for the chosen entry's obsid.
The network call of line 242 happens only in the `productQuery` branch. -/
inductive SelectOutcome where
  | noTimingRestart
  | productQuery (obsid : String) (latest_entry : ObsRecord)
  deriving Repr, DecidableEq

/-- A default record standing for the `IndexError` value of an out-of-range
Python list access; the index used below is always in range (see
`latest_index_lt`), so this default is never produced. -/
def dummyRecord : ObsRecord :=
  { obsid := "", proposal_id := "", proposal_pi := "", target_name := "",
    t_min := none }

/-- Lines 212–223: filter out null `t_min`s, restart when nothing remains,
otherwise index the *unfiltered* `data_entries` by the position of the
maximum within the *filtered* `times` list and query products for that
entry's obsid. -/
def download_latest_obs_select (data_entries : List ObsRecord) : SelectOutcome :=
  let times := data_entries.filterMap (fun e => e.t_min)
  if times.length = 0 then .noTimingRestart
  else
    let latest := times.indexOf (pyMax times)
    let latest_entry := data_entries.getD latest dummyRecord
    .productQuery latest_entry.obsid latest_entry

/-! ## `download_latest_obs`: display-size reduction

Lines 246–270.  `download_size` starts as `int(total / 1000)`; the loop
divides by 1000 while the decimal representation has more than three digits,
counting iterations in `n`; `n = 0,1,2` pick a unit label and any larger `n`
prints the oversize message and restarts. -/

/-- `len(str(x))` for a non-negative integer: the number of decimal digits. -/
def numDigits (x : Nat) : Nat :=
  if x < 10 then 1 else numDigits (x / 10) + 1
  decreasing_by exact Nat.div_lt_self (by omega) (by omega)

/-- The `while len(str(download_size)) > 3:` loop of lines 251–254, returning
the final `download_size` and the final division count `n`. -/
def sizeReduce (download_size : Nat) (n : Nat) : Nat × Nat :=
  if numDigits download_size > 3 then sizeReduce (download_size / 1000) (n + 1)
  else (download_size, n)
  decreasing_by
    refine Nat.div_lt_self ?_ (by omega)
    by_contra h
    simp only [Nat.not_lt, Nat.le_zero] at h
    subst h
    simp [numDigits] at *

/-- Lines 256–264: the unit label chosen from the division count, `none`
standing for the `else` branch that reports the oversize condition. -/
def unitLabel (n : Nat) : Option String :=
  if n = 0 then some "kb"
  else if n = 1 then some "MB"
  else if n = 2 then some "GB"
  else none

/-- Control outcome of the summary phase of `download_latest_obs` on the
product rows' sizes: the oversize restart of lines 262–264 (after which the
size line of line 267 is never printed and the download prompt of line 271
is never reached), or the size summary followed by the download prompt. -/
inductive SummaryOutcome where
  | oversizeRestart
  | promptDownload (files_found : Nat) (size : String)
  deriving Repr, DecidableEq

/-- Lines 246–271: count the product rows, total their sizes, reduce the
total for display, and either restart on oversize or print the summary and
ask about downloading. -/
def summarize_products (sizes : List Nat) : SummaryOutcome :=
  let files_found := sizes.length
  let download_size := sizes.sum
  let result := sizeReduce (download_size / 1000) 0
  match unitLabel result.2 with
  | none => .oversizeRestart
  | some u => .promptDownload files_found ("~" ++ toString result.1 ++ " " ++ u)

/-! ## `launch_mast_download` and `download_single_file`

Lines 291–358.  The filesystem under the root `mastFiles` is modelled as a
set of directories (pairs `(obs_collection, obs_id)`) and a set of files
(triples `(obs_collection, obs_id, productFilename)`).  `launch_mast_download`
creates the output directory of the *first* row if missing (lines 298–305),
then runs one worker per row.  A worker (`download_single_file`) writes the
response body to `mastFiles/<collection>/<obs_id>/<name>`; when that
directory does not exist the `open(outfile, 'wb')` of line 349 raises and the
thread dies without writing, modelled as leaving the filesystem unchanged.
Workers only insert files and never touch the directory set, so any
interleaving of the concurrent workers produces the same final state as the
left fold over the row list (`launch_foldl_perm` below makes the
order-independence explicit); `[th.join() for th in threads]` makes all
worker effects visible before line 320 re-lists the directory. -/

/-- One row of a `Mast.Caom.Products` result, the fields `launch_mast_download`
and `download_single_file` read. -/
structure ProductRow where
  obs_collection : String
  obs_id : String
  productFilename : String
  dataURI : String
  size : Nat
  deriving Repr, DecidableEq

/-- The filesystem beneath the `mastFiles` root: existing directories and
existing files, each named by its path components. -/
@[ext]
structure FS where
  dirs : Finset (String × String)
  files : Finset (String × String × String)
  deriving DecidableEq

/-- The output directory `os.path.join("mastFiles", row['obs_collection'],
row['obs_id'])` of a row, as its two variable components. -/
def outdirOf (row : ProductRow) : String × String :=
  (row.obs_collection, row.obs_id)

/-- The output file path `os.path.join("mastFiles", …, row['productFilename'])`
of a row, as its three variable components. -/
def outfileOf (row : ProductRow) : String × String × String :=
  (row.obs_collection, row.obs_id, row.productFilename)

/-- Lines 304–305: `if not os.path.exists(outdir): os.makedirs(outdir)`. -/
def mkdirIfMissing (fs : FS) (d : String × String) : FS :=
  if d ∈ fs.dirs then fs else { fs with dirs := insert d fs.dirs }

/-- `download_single_file` (lines 325–358) as its filesystem effect: when the
row's output directory exists the body is written to the output file;
otherwise `open` raises inside the thread and nothing is written. -/
def download_single_file (fs : FS) (row : ProductRow) : FS :=
  if outdirOf row ∈ fs.dirs then { fs with files := insert (outfileOf row) fs.files }
  else fs

/-- `os.listdir(outdir)` restricted to the modelled namespace: the files
whose first two path components equal `outdir`.  (Line 320 counts these.) -/
def listdir (fs : FS) (outdir : String × String) : Finset (String × String × String) :=
  fs.files.filter (fun f => f.1 = outdir.1 ∧ f.2.1 = outdir.2)

/-- `launch_mast_download` (lines 291–321): `none` models the `IndexError` of
`scienceProducts[0]` on an empty list.  Otherwise: create the first row's
output directory if missing, run every worker, join, and return the entry
count of a re-listing of that directory together with the final filesystem. -/
def launch_mast_download (fs0 : FS) (scienceProducts : List ProductRow) :
    Option (Nat × FS) :=
  match scienceProducts with
  | [] => none
  | firstrow :: _ =>
    let outdir := outdirOf firstrow
    let fs1 := mkdirIfMissing fs0 outdir
    let fs2 := scienceProducts.foldl download_single_file fs1
    some ((listdir fs2 outdir).card, fs2)

/-- The total number of divisions by 1000 the display-size reduction performs
on a byte total: the initial division of line 250 plus the loop divisions of
lines 252–254. -/
def sizeDivisions (total : Nat) : Nat :=
  (sizeReduce (total / 1000) 0).2 + 1

/-! ### Helper lemmas about `numDigits` and `sizeReduce` -/

lemma numDigits_le_three (x : Nat) (h : x < 1000) : numDigits x ≤ 3 := by
  rw [numDigits.eq_def]
  split
  · omega
  · rw [numDigits.eq_def]
    split
    · omega
    · rw [numDigits.eq_def]
      split
      · omega
      · omega

lemma one_le_numDigits (x : Nat) : 1 ≤ numDigits x := by
  rw [numDigits.eq_def]
  split <;> omega

lemma three_lt_numDigits (x : Nat) (h : 1000 ≤ x) : 3 < numDigits x := by
  rw [numDigits.eq_def]
  split
  · omega
  · rw [numDigits.eq_def]
    split
    · omega
    · rw [numDigits.eq_def]
      split
      · omega
      · have := one_le_numDigits (x / 10 / 10 / 10)
        omega

lemma sizeReduce_snd_le (k : Nat) :
    ∀ ds n : Nat, ds < 1000 ^ (k + 1) → (sizeReduce ds n).2 ≤ n + k := by
  induction k with
  | zero =>
    intro ds n h
    rw [sizeReduce.eq_def]
    split
    · next hguard =>
      exfalso
      have h1000 : ds < 1000 := by
        have : (1000 : Nat) ^ 1 = 1000 := by norm_num
        omega
      have := numDigits_le_three ds h1000
      omega
    · simp
  | succ k ih =>
    intro ds n h
    rw [sizeReduce.eq_def]
    split
    · have hdiv : ds / 1000 < 1000 ^ (k + 1) := by
        rw [Nat.div_lt_iff_lt_mul (by norm_num)]
        calc ds < 1000 ^ (k + 1 + 1) := h
        _ = 1000 ^ (k + 1) * 1000 := by ring
      have := ih (ds / 1000) (n + 1) hdiv
      omega
    · simp

lemma n_le_sizeReduce_snd (ds : Nat) : ∀ n : Nat, n ≤ (sizeReduce ds n).2 := by
  induction ds using Nat.strong_induction_on with
  | _ ds ih =>
    intro n
    rw [sizeReduce.eq_def]
    split
    · next hguard =>
      have hds : 1000 ≤ ds := by
        by_contra hc
        push_neg at hc
        have := numDigits_le_three ds hc
        omega
      have := ih (ds / 1000) (by omega) (n + 1)
      omega
    · simp

lemma sizeReduce_snd_ge (k : Nat) :
    ∀ ds n : Nat, 1000 ^ k ≤ ds → n + k ≤ (sizeReduce ds n).2 := by
  induction k with
  | zero =>
    intro ds n _
    have := n_le_sizeReduce_snd ds n
    omega
  | succ k ih =>
    intro ds n h
    have hds : 1000 ≤ ds := by
      refine le_trans ?_ h
      calc (1000 : Nat) = 1000 ^ 1 := by norm_num
      _ ≤ 1000 ^ (k + 1) := Nat.pow_le_pow_right (by norm_num) (by omega)
    rw [sizeReduce.eq_def]
    split
    · have hdiv : 1000 ^ k ≤ ds / 1000 := by
        rw [Nat.le_div_iff_mul_le (by norm_num)]
        calc 1000 ^ k * 1000 = 1000 ^ (k + 1) := by ring
        _ ≤ ds := h
      have := ih (ds / 1000) (n + 1) hdiv
      omega
    · next hguard =>
      exfalso
      have := three_lt_numDigits ds hds
      omega

lemma sizeReduce_overflow_iff (T : Nat) :
    3 ≤ (sizeReduce (T / 1000) 0).2 ↔ 10 ^ 12 ≤ T := by
  have hpow : (10 : Nat) ^ 12 = 1000000000000 := by norm_num
  constructor
  · intro h
    by_contra hc
    push_neg at hc
    have hds : T / 1000 < 1000 ^ (2 + 1) := by
      have : (1000 : Nat) ^ (2 + 1) = 1000000000 := by norm_num
      omega
    have := sizeReduce_snd_le 2 (T / 1000) 0 hds
    omega
  · intro h
    have hds : 1000 ^ 3 ≤ T / 1000 := by
      have : (1000 : Nat) ^ 3 = 1000000000 := by norm_num
      omega
    have := sizeReduce_snd_ge 3 (T / 1000) 0 hds
    omega

lemma unitLabel_eq_none_iff (n : Nat) : unitLabel n = none ↔ 3 ≤ n := by
  unfold unitLabel
  split
  · next h => subst h; simp
  · split
    · next h => subst h; simp
    · split
      · next h => subst h; simp
      · next h1 h2 h3 => simp; omega

/-! ### Helper lemmas about the download engine -/

lemma mkdirIfMissing_files (fs : FS) (d : String × String) :
    (mkdirIfMissing fs d).files = fs.files := by
  unfold mkdirIfMissing
  split <;> rfl

lemma mkdirIfMissing_dirs (fs : FS) (d : String × String) :
    (mkdirIfMissing fs d).dirs = insert d fs.dirs := by
  unfold mkdirIfMissing
  split
  · next h => exact (Finset.insert_eq_self.mpr h).symm
  · rfl

lemma download_single_file_dirs (fs : FS) (row : ProductRow) :
    (download_single_file fs row).dirs = fs.dirs := by
  unfold download_single_file
  split <;> rfl

lemma foldl_download_dirs (rows : List ProductRow) :
    ∀ fs : FS, (rows.foldl download_single_file fs).dirs = fs.dirs := by
  induction rows with
  | nil => intro fs; rfl
  | cons r rows ih =>
    intro fs
    simp only [List.foldl_cons, ih, download_single_file_dirs]

lemma foldl_download_files (rows : List ProductRow) :
    ∀ fs : FS, (rows.foldl download_single_file fs).files =
      fs.files ∪ ((rows.filter (fun r => outdirOf r ∈ fs.dirs)).map outfileOf).toFinset := by
  induction rows with
  | nil => intro fs; simp
  | cons r rows ih =>
    intro fs
    by_cases hr : outdirOf r ∈ fs.dirs
    · have hstep : download_single_file fs r =
          { fs with files := insert (outfileOf r) fs.files } := by
        unfold download_single_file
        simp [hr]
      rw [List.foldl_cons, hstep, ih]
      simp only [List.filter_cons, hr, List.map_cons, List.toFinset_cons, if_pos, decide_eq_true_eq]
      ext f
      simp
    · have hstep : download_single_file fs r = fs := by
        unfold download_single_file
        simp [hr]
      rw [List.foldl_cons, hstep, ih]
      simp [List.filter_cons, hr]

lemma foldl_download_perm {rows rows' : List ProductRow} (hperm : rows.Perm rows') :
    ∀ fs : FS, rows.foldl download_single_file fs = rows'.foldl download_single_file fs := by
  intro fs
  ext : 1
  · simp only [foldl_download_dirs]
  · simp only [foldl_download_files]
    have : (rows.filter (fun r => outdirOf r ∈ fs.dirs)).Perm
        (rows'.filter (fun r => outdirOf r ∈ fs.dirs)) := hperm.filter _
    rw [List.toFinset_eq_of_perm _ _ (this.map outfileOf)]

/-! ## Claims -/

/-- C1: the spec claims that for a result sequence with at least one non-null
start time the record carrying the maximal start time is selected (first
occurrence on ties).  The code computes the position of the maximum inside
the null-filtered `times` list and uses it as an index into the *unfiltered*
`data_entries`, so a null-`t_min` record occurring before the maximum shifts
the index: here the maximal `t_min` is 5 on `obs-late`, yet the entry with
`t_min` 1 (`obs-early`) is the one queried for products. -/
theorem c1_selection_misaligned_index :
    download_latest_obs_select
      [⟨"obs-null", "1234", "PI", "TGT", none⟩,
       ⟨"obs-early", "1234", "PI", "TGT", some 1⟩,
       ⟨"obs-late", "1234", "PI", "TGT", some 5⟩]
      = .productQuery "obs-early" ⟨"obs-early", "1234", "PI", "TGT", some 1⟩ := by
  decide

/-- C2: the spec claims a record with null start time is never the one
selected.  With a null-`t_min` record ahead of the (unique) timed record, the
misaligned index of line 221 selects exactly that null record. -/
theorem c2_null_record_selected :
    download_latest_obs_select
      [⟨"obs-none", "99", "PI2", "TGT2", none⟩,
       ⟨"obs-timed", "99", "PI2", "TGT2", some 3⟩]
      = .productQuery "obs-none" ⟨"obs-none", "99", "PI2", "TGT2", none⟩ := by
  decide

/-- C3: a proposal identifier that is not the quit sentinel and is not
syntactically an integer makes `proposal_id_query` restart the session; the
submission of a request to `mastQuery` (the only network call, carried by the
`submit` constructor) never happens for it. -/
theorem c3_nonnumeric_rejected_before_network :
    ∀ (s : String) (count : Bool), pyLower s ≠ "q" → pyIntParseable s = false →
      proposal_id_query s count = .restart ∧
      ∀ req : MashupRequest, proposal_id_query s count ≠ .submit req := by
  intro s count hq hp
  have h1 : proposal_id_query s count = .restart := by
    unfold proposal_id_query
    rw [if_neg hq, hp]
    simp
  exact ⟨h1, fun req => by simp [h1]⟩

/-- Witness for C3 at the concrete non-numeric identifier `"12a"`. -/
theorem c3_nonnumeric_rejected_witness :
    pyLower "12a" ≠ "q" ∧ pyIntParseable "12a" = false ∧
      proposal_id_query "12a" true = .restart :=
  ⟨by decide, by decide,
    (c3_nonnumeric_rejected_before_network "12a" true (by decide) (by decide)).1⟩

/-- C4: when every record's start time is null, the selection phase of
`download_latest_obs` takes the no-timing-information restart and never
reaches the `productQuery` outcome, so no product query (nor any later
network call) is issued for that result sequence. -/
theorem c4_all_null_no_product_query :
    ∀ entries : List ObsRecord, (∀ e ∈ entries, e.t_min = none) →
      download_latest_obs_select entries = .noTimingRestart ∧
      ∀ (o : String) (le : ObsRecord),
        download_latest_obs_select entries ≠ .productQuery o le := by
  intro entries h
  have hnil : entries.filterMap (fun e => e.t_min) = [] :=
    List.filterMap_eq_nil_iff.mpr h
  have h1 : download_latest_obs_select entries = .noTimingRestart := by
    unfold download_latest_obs_select
    rw [hnil]
    simp
  exact ⟨h1, fun o le => by simp [h1]⟩

/-- Witness for C4 on a concrete all-null result sequence. -/
theorem c4_all_null_witness :
    download_latest_obs_select
      [⟨"o1", "7", "PI", "TGT", none⟩, ⟨"o2", "7", "PI", "TGT", none⟩]
      = .noTimingRestart :=
  (c4_all_null_no_product_query _ (by decide)).1

/-- C5: the display-size reduction performs at most 3 divisions by 1000
exactly for byte totals below `10^12`, and the unit-label overflow (the
`else` of lines 262–264) occurs exactly for totals at or above `10^12`;
at the boundary, `999000000000` reduces to the `GB` label and
`1000000000000` overflows. -/
theorem c5_size_reduction_bounds :
    (∀ T : Nat, sizeDivisions T ≤ 3 ↔ T < 10 ^ 12) ∧
    (∀ T : Nat, unitLabel (sizeReduce (T / 1000) 0).2 = none ↔ 10 ^ 12 ≤ T) ∧
    unitLabel (sizeReduce (999000000000 / 1000) 0).2 = some "GB" ∧
    unitLabel (sizeReduce (1000000000000 / 1000) 0).2 = none := by
  have hover : ∀ T : Nat,
      unitLabel (sizeReduce (T / 1000) 0).2 = none ↔ 10 ^ 12 ≤ T := by
    intro T
    rw [unitLabel_eq_none_iff, sizeReduce_overflow_iff]
  refine ⟨?_, hover, ?_, ?_⟩
  · intro T
    unfold sizeDivisions
    have h := sizeReduce_overflow_iff T
    have hp : (10 : Nat) ^ 12 = 1000000000000 := by norm_num
    rw [hp] at h ⊢
    omega
  · have hle := sizeReduce_snd_le 2 (999000000000 / 1000) 0 (by norm_num)
    have hge := sizeReduce_snd_ge 2 (999000000000 / 1000) 0 (by norm_num)
    have h2 : (sizeReduce (999000000000 / 1000) 0).2 = 2 := by omega
    rw [h2]
    decide
  · exact (hover 1000000000000).mpr (by norm_num)

/-- C6: whenever the size-reduction division count exceeds the unit labels
(the overflow condition), `download_latest_obs` restarts the cycle: the
outcome is `oversizeRestart`, never the size summary / download prompt. -/
theorem c6_oversize_aborts_cycle :
    ∀ sizes : List Nat,
      unitLabel (sizeReduce (sizes.sum / 1000) 0).2 = none →
      summarize_products sizes = .oversizeRestart ∧
      ∀ (ff : Nat) (s : String), summarize_products sizes ≠ .promptDownload ff s := by
  intro sizes h
  have h1 : summarize_products sizes = .oversizeRestart := by
    unfold summarize_products
    simp [h]
  exact ⟨h1, fun ff s => by simp [h1]⟩

/-- Witness for C6 at a single product of exactly `10^12` bytes. -/
theorem c6_oversize_witness :
    unitLabel (sizeReduce (([1000000000000] : List Nat).sum / 1000) 0).2 = none ∧
    summarize_products [1000000000000] = .oversizeRestart := by
  have hsum : ([1000000000000] : List Nat).sum = 1000000000000 := by simp
  have hnone : unitLabel (sizeReduce (([1000000000000] : List Nat).sum / 1000) 0).2 = none := by
    rw [hsum, unitLabel_eq_none_iff, sizeReduce_overflow_iff]
    norm_num
  exact ⟨hnone, (c6_oversize_aborts_cycle _ hnone).1⟩

/-- C7: the count retry loop of `start_proposal_id_check` hands a count to
the inspect-confirmation prompt only when it lies in `1..50000`; as long as
the supplied counts are `0` or above `50000` it keeps re-prompting and never
exits. -/
theorem c7_count_range_gate :
    (∀ (cs : List Nat) (c : Nat), countLoop cs = some c → 1 ≤ c ∧ c ≤ 50000) ∧
    (∀ cs : List Nat, (∀ c ∈ cs, c = 0 ∨ 50000 < c) → countLoop cs = none) := by
  constructor
  · intro cs
    induction cs with
    | nil => intro c h; simp [countLoop] at h
    | cons c0 rest ih =>
      intro c h
      unfold countLoop at h
      by_cases hc : c0 > 50000 || c0 == 0
      · rw [if_pos hc] at h
        exact ih c h
      · rw [if_neg hc] at h
        simp only [Bool.or_eq_true, decide_eq_true_eq, beq_iff_eq, not_or] at hc
        injection h with h
        omega
  · intro cs h
    induction cs with
    | nil => rfl
    | cons c0 rest ih =>
      have hc0 := h c0 (by simp)
      have hcond : (c0 > 50000 || c0 == 0) = true := by
        rcases hc0 with h0 | h0
        · simp [h0]
        · simp only [Bool.or_eq_true, decide_eq_true_eq, beq_iff_eq]
          omega
      unfold countLoop
      rw [if_pos hcond]
      exact ih (fun c hcmem => h c (by simp [hcmem]))

/-- Witness for C7: the loop skips `0` and `60000` and exits at `42`, which
the theorem places in range. -/
theorem c7_count_range_witness :
    countLoop [0, 60000, 42] = some 42 ∧ 1 ≤ 42 ∧ 42 ≤ 50000 :=
  ⟨by decide, c7_count_range_gate.1 [0, 60000, 42] 42 (by decide)⟩

/-- C8: for a non-empty product list, `launch_mast_download` returns the
entry count of a re-listing of the destination directory taken from the
final filesystem state in which every worker's effect is applied (the join
barrier of line 316): the returned count is `(listdir fs2 outdir).card` for
the post-join state `fs2`, any completion order of the workers yields that
same `fs2` (the workers' insertions commute, so the fold over any permutation
of the product list agrees), and every worker that targets the listed
directory has its file present in the listing that is counted — the count is
read back from the directory, not accumulated in a shared counter. -/
theorem c8_join_barrier_then_recount :
    ∀ (fs0 : FS) (firstrow : ProductRow) (rest : List ProductRow),
      ∃ fs2 : FS,
        launch_mast_download fs0 (firstrow :: rest) =
          some ((listdir fs2 (outdirOf firstrow)).card, fs2) ∧
        (∀ rows' : List ProductRow, (firstrow :: rest).Perm rows' →
            rows'.foldl download_single_file (mkdirIfMissing fs0 (outdirOf firstrow)) = fs2) ∧
        (∀ row ∈ firstrow :: rest, outdirOf row = outdirOf firstrow →
            outfileOf row ∈ listdir fs2 (outdirOf firstrow)) := by
  intro fs0 firstrow rest
  refine ⟨(firstrow :: rest).foldl download_single_file
      (mkdirIfMissing fs0 (outdirOf firstrow)), rfl, ?_, ?_⟩
  · intro rows' hperm
    exact (foldl_download_perm hperm _).symm
  · intro row hrow hdir
    have hdirs : outdirOf row ∈ (mkdirIfMissing fs0 (outdirOf firstrow)).dirs := by
      rw [hdir, mkdirIfMissing_dirs]
      exact Finset.mem_insert_self _ _
    have hfile : outfileOf row ∈
        ((firstrow :: rest).foldl download_single_file
          (mkdirIfMissing fs0 (outdirOf firstrow))).files := by
      rw [foldl_download_files]
      refine Finset.mem_union_right _ ?_
      rw [List.mem_toFinset]
      exact List.mem_map_of_mem _ (List.mem_filter.mpr ⟨hrow, by simp [hdirs]⟩)
    unfold listdir
    rw [Finset.mem_filter]
    refine ⟨hfile, ?_⟩
    rw [← hdir]
    exact ⟨rfl, rfl⟩

/-- Witness for C8 on a one-product list over an empty filesystem. -/
theorem c8_join_barrier_witness :
    ∃ fs2 : FS,
      launch_mast_download ⟨∅, ∅⟩ [⟨"JWST", "obs-001", "f1.fits", "mast:u1", 10⟩] =
        some ((listdir fs2 (outdirOf ⟨"JWST", "obs-001", "f1.fits", "mast:u1", 10⟩)).card, fs2) ∧
      outfileOf ⟨"JWST", "obs-001", "f1.fits", "mast:u1", 10⟩ ∈
        listdir fs2 (outdirOf ⟨"JWST", "obs-001", "f1.fits", "mast:u1", 10⟩) := by
  obtain ⟨fs2, h1, -, h3⟩ :=
    c8_join_barrier_then_recount ⟨∅, ∅⟩ ⟨"JWST", "obs-001", "f1.fits", "mast:u1", 10⟩ []
  exact ⟨fs2, h1, h3 _ (by simp) rfl⟩

/-- C9: the destination directory is derived from the first product row
alone; a later row whose `(obs_collection, obs_id)` pair differs (and whose
directory did not pre-exist) never gets its directory created, its file is
never written, and its file is not part of the re-listing whose entry count
is returned. -/
theorem c9_foreign_row_never_created_or_counted :
    ∀ (fs0 : FS) (firstrow row : ProductRow) (rest : List ProductRow),
      row ∈ rest →
      outdirOf row ≠ outdirOf firstrow →
      outdirOf row ∉ fs0.dirs →
      outfileOf row ∉ fs0.files →
      ∃ fs2 : FS,
        launch_mast_download fs0 (firstrow :: rest) =
          some ((listdir fs2 (outdirOf firstrow)).card, fs2) ∧
        outdirOf row ∉ fs2.dirs ∧
        outfileOf row ∉ fs2.files ∧
        outfileOf row ∉ listdir fs2 (outdirOf firstrow) := by
  intro fs0 firstrow row rest hmem hne hnd hnf
  refine ⟨(firstrow :: rest).foldl download_single_file
      (mkdirIfMissing fs0 (outdirOf firstrow)), rfl, ?_, ?_, ?_⟩
  · rw [foldl_download_dirs, mkdirIfMissing_dirs]
    rw [Finset.mem_insert]
    rintro (h | h)
    · exact hne h
    · exact hnd h
  · rw [foldl_download_files]
    rw [Finset.mem_union]
    rintro (hl | hr)
    · rw [mkdirIfMissing_files] at hl
      exact hnf hl
    · rw [List.mem_toFinset] at hr
      obtain ⟨r', hr', heq⟩ := List.mem_map.mp hr
      have hfilter := List.mem_filter.mp hr'
      have hd' : outdirOf r' ∈ (mkdirIfMissing fs0 (outdirOf firstrow)).dirs := by
        have := hfilter.2
        simpa using this
      have hsame : outdirOf r' = outdirOf row := by
        unfold outfileOf at heq
        unfold outdirOf
        rw [Prod.ext_iff] at heq ⊢
        rw [Prod.ext_iff] at heq
        exact ⟨heq.1, heq.2.1⟩
      rw [hsame, mkdirIfMissing_dirs, Finset.mem_insert] at hd'
      rcases hd' with h | h
      · exact hne h
      · exact hnd h
  · unfold listdir
    rw [Finset.mem_filter]
    rintro ⟨-, h1, h2⟩
    apply hne
    unfold outdirOf
    unfold outfileOf at h1 h2
    exact Prod.ext h1 h2

/-- Witness for C9: two rows with different observation folders; the second
row's directory is never created. -/
theorem c9_foreign_row_witness :
    ∃ fs2 : FS,
      launch_mast_download ⟨∅, ∅⟩
          [⟨"JWST", "obs-A", "a.fits", "mast:uA", 1⟩,
           ⟨"JWST", "obs-B", "b.fits", "mast:uB", 2⟩] =
        some ((listdir fs2 (outdirOf ⟨"JWST", "obs-A", "a.fits", "mast:uA", 1⟩)).card, fs2) ∧
      outdirOf ⟨"JWST", "obs-B", "b.fits", "mast:uB", 2⟩ ∉ fs2.dirs := by
  obtain ⟨fs2, h1, h2, -, -⟩ :=
    c9_foreign_row_never_created_or_counted ⟨∅, ∅⟩
      ⟨"JWST", "obs-A", "a.fits", "mast:uA", 1⟩
      ⟨"JWST", "obs-B", "b.fits", "mast:uB", 2⟩
      [⟨"JWST", "obs-B", "b.fits", "mast:uB", 2⟩]
      (by simp) (by decide) (by simp) (by simp)
  exact ⟨fs2, h1, h2⟩

/-- C10: any input whose Python lowercasing equals `"q"` makes
`proposal_id_query` terminate the program, before the integer-syntax check
(in particular `"Q"`, which is not integer-parseable, still quits rather
than restarting). -/
theorem c10_quit_sentinel_case_insensitive :
    (∀ (s : String) (count : Bool), pyLower s = "q" →
        proposal_id_query s count = .quitProgram) ∧
    proposal_id_query "Q" true = .quitProgram ∧
    proposal_id_query "q" true = .quitProgram ∧
    pyIntParseable "Q" = false := by
  have h1 : ∀ (s : String) (count : Bool), pyLower s = "q" →
      proposal_id_query s count = .quitProgram := by
    intro s count h
    unfold proposal_id_query
    rw [if_pos h]
  exact ⟨h1, h1 "Q" true (by decide), h1 "q" true (by decide), by decide⟩

/-- Witness for C10 at the concrete input `"Q"`. -/
theorem c10_quit_sentinel_witness :
    pyLower "Q" = "q" ∧ proposal_id_query "Q" false = .quitProgram :=
  ⟨by decide, c10_quit_sentinel_case_insensitive.1 "Q" false (by decide)⟩

end ApiDownload
